import Mathlib

/-!
# A shallow embedding of the qdb storage engine

This file embeds the storage core of the repository (package `qdb`,
`src/unnamed/part_000`, lines 1-481) in Lean 4 and proves the frozen claims
about it.

The repository ships only `qdb.go` of the qdb package: the index layer
(`idx.go`: `Index`, `memput`, `memdel`, `get`, `browse`, `addtolog`,
`deltolog`, `writebuf`, `writedatfile`, `load`), the data layer (`dat.go`:
`loadrec`, `addtolog`, `checklogfile`, `cleanupold`) and the payload binding
(`membind.go`: `newIdx`, `Slice`, `FreeData`) are referenced but absent from
the sources.  Definitions for those are modelled from the specification and
carry a doc comment starting with `Modelled from the spec:`.  Everything else
is translated directly from `qdb.go`.

Modelling conventions:
* Machine integers (`uint32`, `uint64`, `KeyType = uint64`) become `Nat`.
  The one place where 64-bit wrap-around is reachable in the source - the
  threshold products `uint64(perc) * DiskSpaceNeeded` - carries an explicit
  `% 2 ^ 64`.
* Byte slices become `List Nat`.
* Go maps become association lists / key lists; pointer mutation of an index
  entry becomes replacement of that key's entry.
* Data files are lists of records `(offset, key, payload)` where `offset` is
  the byte position of the record in the file (each record occupies
  `8 + 4 + payload.length` bytes: key, length, payload, little-endian).
* The debug counters (`cnt(...)`) touch only a global diagnostic map and are
  not part of the store state; they are omitted.
* `Put`/`PutExt`/`Del` additionally return a `Bool` reporting whether the
  sync policy fired (the source spawns `db.sync()` at exactly those points);
  `Browse`/`BrowseAll` additionally return the trace of walk-function
  invocations (key and returned mask).  These observational outputs stand in
  for the goroutine spawn and the callback side effects.
-/

namespace Qdb

/-- Key of a record (`KeyType uint64` in the source). -/
abbrev KeyType := Nat

/-- `NoBrowse = 0x00000001` -/
def NoBrowse : Nat := 0x00000001

/-- `NoCache = 0x00000002` -/
def NoCache : Nat := 0x00000002

/-- `BrAbort = 0x00000004` -/
def BrAbort : Nat := 0x00000004

/-- `YesCache = 0x00000008` -/
def YesCache : Nat := 0x00000008

/-- `YesBrowse = 0x00000010` -/
def YesBrowse : Nat := 0x00000010

/-- Complement of `NoBrowse` as a `uint32` (`^uint32(NoBrowse)`). -/
def MaskNotNoBrowse : Nat := 0xFFFFFFFE

/-- Complement of `NoCache` as a `uint32` (`^uint32(NoCache)`). -/
def MaskNotNoCache : Nat := 0xFFFFFFFD

/-- `DefaultDefragPercentVal = 50` -/
def DefaultDefragPercentVal : Nat := 50

/-- `DefaultForcedDefragPerc = 300` -/
def DefaultForcedDefragPerc : Nat := 300

/-- `DefaultMaxPending = 2500` -/
def DefaultMaxPending : Nat := 2500

/-- `DefaultMaxPendingNoSync = 10000` -/
def DefaultMaxPendingNoSync : Nat := 10000

/-- One index entry (`oneIdx` in the source): the optional in-memory payload
`data` and the locator `(DataSeq, datpos, datlen, flags)`. -/
structure OneIdx where
  data : Option (List Nat)
  DataSeq : Nat
  datpos : Nat
  datlen : Nat
  flags : Nat
deriving DecidableEq, Repr

/-- `ExtraOpts` of the source: the four policy knobs. -/
structure ExtraOpts where
  DefragPercentVal : Nat
  ForcedDefragPerc : Nat
  MaxPending : Nat
  MaxPendingNoSync : Nat
deriving DecidableEq, Repr

/-- The option block installed by `NewDBExt` when no `ExtraOpts` are given. -/
def defaultOpts : ExtraOpts :=
  { DefragPercentVal := DefaultDefragPercentVal
    ForcedDefragPerc := DefaultForcedDefragPerc
    MaxPending := DefaultMaxPending
    MaxPendingNoSync := DefaultMaxPendingNoSync }

/-- One record of the index log: a put record carries
`(key, data_seq, offset, length, flags)`, a delete record carries the key. -/
inductive IdxRec where
  | put (key DataSeq datpos datlen flags : Nat)
  | del (key : Nat)
deriving DecidableEq, Repr

/-- A data file of one generation: records `(offset, key, payload)` in append
order, `offset` being the byte position of the record in the file. -/
abbrev DatFile := List (Nat × KeyType × List Nat)

/-- Byte size of a data file: every record occupies 8 (key) + 4 (length)
bytes of header plus its payload. -/
def datSize (f : DatFile) : Nat :=
  f.foldl (fun a r => a + 8 + 4 + r.2.2.length) 0

/-- `Modelled from the spec:` the on-disk state in the store's folder
(§6 of the spec): the per-generation data files, the current index snapshot
(the locators dumped by the index rewrite, `qdb.0`/`qdb.1`), the snapshot
header's highest data-file generation, and the append-only index log
(`qdb.log`).  The byte codecs of `idx.go`/`dat.go` are absent from the
sources; files are modelled at record granularity. -/
structure Disk where
  datFiles : List (Nat × DatFile)
  snapshot : List (KeyType × OneIdx)
  snapshotSeq : Nat
  idxLog : List IdxRec
deriving DecidableEq, Repr

/-- A disk with no files: a freshly created folder. -/
def emptyDisk : Disk :=
  { datFiles := [], snapshot := [], snapshotSeq := 0, idxLog := [] }

/-- In-memory index (`Index` of the missing `idx.go`): the entries plus the
space accounting counters used by the defrag policy. -/
structure Index where
  entries : List (KeyType × OneIdx)
  ExtraSpaceUsed : Nat
  DiskSpaceNeeded : Nat
deriving DecidableEq, Repr

/-- The store (`DB` in the source).  File handles (`LogFile`, `DatFiles`)
are folded into `disk`; the mutex disappears because the embedding is a
sequential state machine. -/
structure DB where
  DataSeq : Nat
  Idx : Index
  NoSyncMode : Bool
  PendingRecords : List KeyType
  VolatileMode : Bool
  O : ExtraOpts
  disk : Disk
deriving DecidableEq, Repr

/-- First entry of an association list with the given key. -/
def alGet (l : List (KeyType × OneIdx)) (k : KeyType) : Option OneIdx :=
  match l with
  | [] => none
  | e :: rest => if e.1 = k then some e.2 else alGet rest k

/-- Replace the entry of a key by a new record (pointer mutation of the
found `*oneIdx` in the source). -/
def alSet (l : List (KeyType × OneIdx)) (k : KeyType) (r : OneIdx) :
    List (KeyType × OneIdx) :=
  l.map (fun e => if e.1 = k then (e.1, r) else e)

/-- Remove the entry of a key. -/
def alDel (l : List (KeyType × OneIdx)) (k : KeyType) :
    List (KeyType × OneIdx) :=
  l.filter (fun e => e.1 ≠ k)

/-- File of a generation (`db.DatFiles[seq]`); a missing file reads as
empty. -/
def datFileGet (fs : List (Nat × DatFile)) (seq : Nat) : DatFile :=
  match fs with
  | [] => []
  | e :: rest => if e.1 = seq then e.2 else datFileGet rest seq

/-- Install the file of a generation, creating it when absent (the lazy
open of `checklogfile` / the data-file handle cache). -/
def datFileSet (fs : List (Nat × DatFile)) (seq : Nat) (f : DatFile) :
    List (Nat × DatFile) :=
  match fs with
  | [] => [(seq, f)]
  | e :: rest => if e.1 = seq then (seq, f) :: rest else e :: datFileSet rest seq f

/-- `Modelled from the spec:` `Slice()` of the missing `membind.go` - the
record's in-memory payload as a byte slice (empty when not cached). -/
def OneIdx.Slice (r : OneIdx) : List Nat :=
  r.data.getD []

/-- `Modelled from the spec:` `FreeData()` of the missing `membind.go` -
drop the in-memory payload, keeping the locator. -/
def OneIdx.FreeData (r : OneIdx) : OneIdx :=
  { r with data := none }

/-- `freerec` (source lines 463-467): drop the payload iff the entry's
`NoCache` flag is set. -/
def OneIdx.freerec (r : OneIdx) : OneIdx :=
  if r.flags &&& NoCache ≠ 0 then r.FreeData else r

/-- `applyBrowsingFlags` (source lines 469-481): fold a result mask into the
entry's flags.  For each of the two bits the set-request branch is tested
first; the clear-request only fires in its `else`. -/
def OneIdx.applyBrowsingFlags (idx : OneIdx) (res : Nat) : OneIdx :=
  let f1 :=
    if res &&& NoBrowse ≠ 0 then idx.flags ||| NoBrowse
    else if res &&& YesBrowse ≠ 0 then idx.flags &&& MaskNotNoBrowse
    else idx.flags
  let f2 :=
    if res &&& NoCache ≠ 0 then f1 ||| NoCache
    else if res &&& YesCache ≠ 0 then f1 &&& MaskNotNoCache
    else f1
  { idx with flags := f2 }

/-- `Modelled from the spec:` `newIdx(value, flags)` of the missing
`membind.go` - a fresh entry holding the payload in memory; the locator is
filled in by the first sync/defrag. -/
def newIdx (value : List Nat) (flags : Nat) : OneIdx :=
  { data := some value, DataSeq := 0, datpos := 0, datlen := value.length
    flags := flags }

/-- `Modelled from the spec:` `Index.get` of the missing `idx.go` - return
the entry of a key, or nothing (§4.2 mutation API). -/
def Index.get (ix : Index) (k : KeyType) : Option OneIdx :=
  alGet ix.entries k

/-- `Modelled from the spec:` `Index.memput` of the missing `idx.go` - if
the key was present, credit `extra_space_used` with the previous length;
install the new locator; `disk_space_needed` is kept equal to the sum of
live lengths (§4.2 mutation API). -/
def Index.memput (ix : Index) (k : KeyType) (r : OneIdx) : Index :=
  match alGet ix.entries k with
  | some old =>
      { ix with
        entries := alSet ix.entries k r
        ExtraSpaceUsed := ix.ExtraSpaceUsed + old.datlen
        DiskSpaceNeeded := ix.DiskSpaceNeeded - old.datlen + r.datlen }
  | none =>
      { ix with
        entries := ix.entries ++ [(k, r)]
        DiskSpaceNeeded := ix.DiskSpaceNeeded + r.datlen }

/-- `Modelled from the spec:` `Index.memdel` of the missing `idx.go` - if
present, credit `extra_space_used` with the previous length and remove
(§4.2 mutation API). -/
def Index.memdel (ix : Index) (k : KeyType) : Index :=
  match alGet ix.entries k with
  | some old =>
      { ix with
        entries := alDel ix.entries k
        ExtraSpaceUsed := ix.ExtraSpaceUsed + old.datlen
        DiskSpaceNeeded := ix.DiskSpaceNeeded - old.datlen }
  | none => ix

/-- Sum of the `datlen` fields of a list of entries (the live disk space). -/
def sumDatLen (l : List (KeyType × OneIdx)) : Nat :=
  l.foldl (fun a e => a + e.2.datlen) 0

/-- `Modelled from the spec:` `loadrec` of the missing `dat.go` - ensure the
payload is resident: if not cached, read `datlen` bytes at `datpos` of the
generation-`DataSeq` data file (§4.1 `read`: the stored header is not
re-parsed, trust is placed in the locator).  An unresolvable locator leaves
the entry uncached. -/
def DB.loadrec (db : DB) (r : OneIdx) : OneIdx :=
  match r.data with
  | some _ => r
  | none =>
      match (datFileGet db.disk.datFiles r.DataSeq).find? (fun e => e.1 = r.datpos) with
      | some e => { r with data := some (e.2.2.take r.datlen) }
      | none => r

/-- `Modelled from the spec:` `addtolog` of the missing `dat.go` (§4.1
`append`): append `(key, length, payload)` to the data file of the given
generation - opened lazily if needed - and return the starting offset of
the freshly written record. -/
def datAppend (fs : List (Nat × DatFile)) (seq : Nat) (k : KeyType)
    (payload : List Nat) : List (Nat × DatFile) × Nat :=
  let f := datFileGet fs seq
  let off := datSize f
  (datFileSet fs seq (f ++ [(off, k, payload)]), off)

/-- The forced-defrag threshold of `sync` (source line 439):
`uint64(db.O.ForcedDefragPerc) * db.Idx.DiskSpaceNeeded / 100` in 64-bit
arithmetic. -/
def forcedThreshold (o : ExtraOpts) (needed : Nat) : Nat :=
  o.ForcedDefragPerc * needed % 2 ^ 64 / 100

/-- The voluntary-defrag threshold of `Defrag` (source line 308):
`uint64(db.O.DefragPercentVal) * db.Idx.DiskSpaceNeeded / 100` in 64-bit
arithmetic. -/
def defragThreshold (o : ExtraOpts) (needed : Nat) : Nat :=
  o.DefragPercentVal * needed % 2 ^ 64 / 100

/-- `syncneeded` (source lines 448-461): never in volatile mode; otherwise
when the pending set outgrew `MaxPendingNoSync`, or - outside no-sync
mode - when it outgrew `MaxPending`. -/
def DB.syncneeded (db : DB) : Bool :=
  if db.VolatileMode then false
  else if db.PendingRecords.length > db.O.MaxPendingNoSync then true
  else if !db.NoSyncMode && db.PendingRecords.length > db.O.MaxPending then true
  else false

/-- The body of the `for k := range db.PendingRecords` loop of `sync`
(source lines 421-435): if the key is live, append its payload to the
current data file, point the locator at the fresh location, emit a put
record into the index-log buffer `bidx`, and drop the payload when
`NoCache` is set; if the key is gone, emit a delete record. -/
def syncOneKey (db : DB) (bidx : List IdxRec) (k : KeyType) :
    DB × List IdxRec :=
  match db.Idx.get k with
  | some rec =>
      let ap := datAppend db.disk.datFiles db.DataSeq k rec.Slice
      let rec2 : OneIdx := { rec with datpos := ap.2, DataSeq := db.DataSeq }
      let rec3 := if rec2.flags &&& NoCache ≠ 0 then rec2.FreeData else rec2
      ({ db with
           Idx := { db.Idx with entries := alSet db.Idx.entries k rec3 }
           disk := { db.disk with datFiles := ap.1 } },
       bidx ++ [IdxRec.put k rec2.DataSeq rec2.datpos rec2.datlen rec2.flags])
  | none => (db, bidx ++ [IdxRec.del k])

/-- `defrag` (source lines 384-411): bump the generation, rewrite every live
record into the fresh data file (loading uncached payloads, dropping them
again when `NoCache` is set), write a new index snapshot - which truncates
the index log and recomputes `DiskSpaceNeeded` (`Idx.writedatfile`, absent
`idx.go`) - remove the superseded data files (`cleanupold`, absent
`dat.go`), and reset `ExtraSpaceUsed` to zero. -/
def DB.defrag (db : DB) : DB :=
  let s := db.DataSeq + 1
  let p := db.Idx.entries.foldl
    (fun (st : DatFile × List (KeyType × OneIdx)) e =>
      let rec1 := db.loadrec e.2
      let off := datSize st.1
      let rec2 := ({ rec1 with datpos := off, DataSeq := s } : OneIdx).freerec
      (st.1 ++ [(off, e.1, rec1.Slice)], st.2 ++ [(e.1, rec2)]))
    ([], [])
  { db with
    DataSeq := s
    Idx := { entries := p.2, ExtraSpaceUsed := 0, DiskSpaceNeeded := sumDatLen p.2 }
    disk :=
      { datFiles := [(s, p.1)]
        snapshot := p.2.map (fun e => (e.1, e.2.FreeData))
        snapshotSeq := s
        idxLog := [] } }

/-- `sync` (source lines 413-446): nothing in volatile mode or with an empty
pending set; otherwise process every pending key (`syncOneKey`), append the
buffered index-log records (`Idx.writebuf`, absent `idx.go`), clear the
pending set, and defrag at once when `ExtraSpaceUsed` crossed the forced
threshold. -/
def DB.sync (db : DB) : DB :=
  if db.VolatileMode then db
  else if 0 < db.PendingRecords.length then
    let st := db.PendingRecords.foldl
      (fun (s : DB × List IdxRec) k => syncOneKey s.1 s.2 k) (db, [])
    let db2 : DB :=
      { st.1 with
        disk := { st.1.disk with idxLog := st.1.disk.idxLog ++ st.2 }
        PendingRecords := [] }
    if db2.Idx.ExtraSpaceUsed > forcedThreshold db2.O db2.Idx.DiskSpaceNeeded then
      db2.defrag
    else db2
  else db

/-- Record a key in the pending set (`db.PendingRecords[key] = true`). -/
def pendingInsert (l : List KeyType) (k : KeyType) : List KeyType :=
  if l.contains k then l else l ++ [k]

/-- `PutExt` (source lines 251-269): install the new record in memory; in
volatile mode just turn no-sync mode on; otherwise mark the key pending and
run `sync` when the policy fires.  The returned `Bool` reports whether the
sync was triggered. -/
def DB.PutExt (db : DB) (key : KeyType) (value : List Nat) (flags : Nat) :
    DB × Bool :=
  let db1 : DB := { db with Idx := db.Idx.memput key (newIdx value flags) }
  if db1.VolatileMode then ({ db1 with NoSyncMode := true }, false)
  else
    let db2 : DB := { db1 with PendingRecords := pendingInsert db1.PendingRecords key }
    if db2.syncneeded then (db2.sync, true) else (db2, false)

/-- `Put` (source lines 231-248): `PutExt` with an all-clear flag word
(`newIdx(value, 0)`). -/
def DB.Put (db : DB) (key : KeyType) (value : List Nat) : DB × Bool :=
  db.PutExt key value 0

/-- `Del` (source lines 272-290): remove the record in memory; in volatile
mode just turn no-sync mode on; otherwise mark the key pending and run
`sync` when the policy fires. -/
def DB.Del (db : DB) (key : KeyType) : DB × Bool :=
  let db1 : DB := { db with Idx := db.Idx.memdel key }
  if db1.VolatileMode then ({ db1 with NoSyncMode := true }, false)
  else
    let db2 : DB := { db1 with PendingRecords := pendingInsert db1.PendingRecords key }
    if db2.syncneeded then (db2.sync, true) else (db2, false)

/-- `Get` (source lines 206-217): for a present key, materialize the
payload, apply a `YesCache` request ("we are giving out the pointer, so
keep it in cache") and hand the payload out; an absent key yields nothing
and changes nothing. -/
def DB.Get (db : DB) (key : KeyType) : Option (List Nat) × DB :=
  match db.Idx.get key with
  | none => (none, db)
  | some rec =>
      let r1 := db.loadrec rec
      let r2 := r1.applyBrowsingFlags YesCache
      (some r2.Slice,
       { db with Idx := { db.Idx with entries := alSet db.Idx.entries key r2 } })

/-- The shared traversal of `Browse`/`BrowseAll` over the index entries
(`Idx.browse` of the absent `idx.go` with the two callbacks of source lines
177-186 and 194-199 inlined): with `skipNB` set, entries whose `NoBrowse`
flag is set are passed over untouched; every visited entry is materialized,
the walk result mask is folded into its flags, `freerec` drops the payload
when `NoCache` ended up set, and the traversal stops once the result has the
`BrAbort` bit.  Returns the rewritten entries and the trace of walk calls
`(key, result mask)`. -/
def browseGo (db : DB) (walk : KeyType → List Nat → Nat) (skipNB : Bool) :
    List (KeyType × OneIdx) → List (KeyType × OneIdx) × List (KeyType × Nat)
  | [] => ([], [])
  | e :: rest =>
      if skipNB && e.2.flags &&& NoBrowse ≠ 0 then
        let p := browseGo db walk skipNB rest
        (e :: p.1, p.2)
      else
        let r1 := db.loadrec e.2
        let res := walk e.1 r1.Slice
        let r2 := (r1.applyBrowsingFlags res).freerec
        if res &&& BrAbort = 0 then
          let p := browseGo db walk skipNB rest
          ((e.1, r2) :: p.1, (e.1, res) :: p.2)
        else ((e.1, r2) :: rest, [(e.1, res)])

/-- `Browse` (source lines 175-189): walk the records whose `NoBrowse` flag
is clear; abort on `BrAbort`. -/
def DB.Browse (db : DB) (walk : KeyType → List Nat → Nat) :
    DB × List (KeyType × Nat) :=
  let p := browseGo db walk true db.Idx.entries
  ({ db with Idx := { db.Idx with entries := p.1 } }, p.2)

/-- `BrowseAll` (source lines 192-203): like `Browse` but also visiting
non-browsable records. -/
def DB.BrowseAll (db : DB) (walk : KeyType → List Nat → Nat) :
    DB × List (KeyType × Nat) :=
  let p := browseGo db walk false db.Idx.entries
  ({ db with Idx := { db.Idx with entries := p.1 } }, p.2)

/-- `Defrag` (source lines 303-320): refuse in volatile mode; otherwise
compact when forced or when `ExtraSpaceUsed` crossed the voluntary
threshold, and report whether compaction was performed. -/
def DB.Defrag (db : DB) (force : Bool) : DB × Bool :=
  if db.VolatileMode then (db, false)
  else
    let doing := force ||
      decide (db.Idx.ExtraSpaceUsed > defragThreshold db.O db.Idx.DiskSpaceNeeded)
    if doing then (db.defrag, true) else (db, false)

/-- `Close` (source lines 348-368): in volatile mode flush everything to
disk through `defrag` when there is unsynced data (`NoSyncMode` was set by
the first volatile mutation); otherwise run a final `sync`.  The result is
the on-disk state left behind after all handles are closed. -/
def DB.Close (db : DB) : Disk :=
  (if db.VolatileMode then (if db.NoSyncMode then db.defrag else db)
   else db.sync).disk

/-- `Modelled from the spec:` `NewDBExt` with `Idx.load` of the absent
`idx.go` (§4.2 snapshot load): ingest the current snapshot, replay the
index log forward applying put/delete records, and start the store with
`DataSeq` one above the highest generation ever used. -/
def openFromDisk (d : Disk) (volatile : Bool) (opts : ExtraOpts) : DB :=
  let ix0 : Index :=
    { entries := d.snapshot, ExtraSpaceUsed := 0
      DiskSpaceNeeded := sumDatLen d.snapshot }
  let ix := d.idxLog.foldl
    (fun (ix : Index) r =>
      match r with
      | IdxRec.put k s pos len fl =>
          ix.memput k { data := none, DataSeq := s, datpos := pos, datlen := len, flags := fl }
      | IdxRec.del k => ix.memdel k) ix0
  let maxSeq := d.idxLog.foldl
    (fun (m : Nat) r =>
      match r with
      | IdxRec.put _ s _ _ _ => max m s
      | IdxRec.del _ => m) d.snapshotSeq
  { DataSeq := maxSeq + 1
    Idx := ix
    NoSyncMode := false
    PendingRecords := []
    VolatileMode := volatile
    O := opts
    disk := d }

/-- A store freshly created in an empty folder with default options
(`NewDB` / `NewDBExt` without `ExtraOpts`). -/
def newDB (volatile : Bool) : DB :=
  openFromDisk emptyDisk volatile defaultOpts

/-- The sync-trigger policy as claim C2 words it: in no-sync mode the
threshold is `MaxPendingNoSync`, otherwise it is `MaxPending`.  This is the
claim's reading, kept to be compared against `syncneeded` of the source. -/
def syncneededClaim (db : DB) : Bool :=
  if db.NoSyncMode then db.PendingRecords.length > db.O.MaxPendingNoSync
  else db.PendingRecords.length > db.O.MaxPending

/-- The trace of walk calls that claim C6 predicts for a traversal of the
given entries: skip (when `skipNB`) exactly the entries whose `NoBrowse`
flag is set, call the walk function on every other entry's materialized
payload, and stop right after the first result carrying `BrAbort`. -/
def traceSpec (db : DB) (walk : KeyType → List Nat → Nat) (skipNB : Bool) :
    List (KeyType × OneIdx) → List (KeyType × Nat)
  | [] => []
  | e :: rest =>
      if skipNB && e.2.flags &&& NoBrowse ≠ 0 then traceSpec db walk skipNB rest
      else
        let res := walk e.1 (db.loadrec e.2).Slice
        if res &&& BrAbort = 0 then (e.1, res) :: traceSpec db walk skipNB rest
        else [(e.1, res)]

/-! ## Helper lemmas -/

theorem lor_land_self (f m : Nat) : (f ||| m) &&& m = m := by
  apply Nat.eq_of_testBit_eq
  intro i
  simp only [Nat.testBit_land, Nat.testBit_lor]
  cases h : m.testBit i <;> simp [h]

theorem lor_land_of_disjoint (f m c : Nat) (h : m &&& c = 0) :
    (f ||| m) &&& c = f &&& c := by
  apply Nat.eq_of_testBit_eq
  intro i
  have hm : (m.testBit i && c.testBit i) = false := by
    have h' := congrArg (fun x => Nat.testBit x i) h
    simpa only [Nat.testBit_land, Nat.zero_testBit] using h'
  simp only [Nat.testBit_land, Nat.testBit_lor]
  cases hf : f.testBit i <;> cases hc : c.testBit i <;> simp_all

theorem land_land (f a b : Nat) : f &&& a &&& b = f &&& (a &&& b) :=
  Nat.land_assoc f a b

theorem alGet_alSet_self (l : List (KeyType × OneIdx)) (k : KeyType)
    (r r0 : OneIdx) (h : alGet l k = some r0) :
    alGet (alSet l k r) k = some r := by
  induction l with
  | nil => simp [alGet] at h
  | cons e rest ih =>
      by_cases he : e.1 = k
      · simp [alGet, alSet, he]
      · simp only [alGet, alSet, he, if_neg, List.map_cons, if_false] at h ⊢
        exact ih h

theorem datFileGet_datFileSet (fs : List (Nat × DatFile)) (seq : Nat) (f : DatFile) :
    datFileGet (datFileSet fs seq f) seq = f := by
  induction fs with
  | nil => simp [datFileGet, datFileSet]
  | cons e rest ih =>
      by_cases he : e.1 = seq
      · simp [datFileGet, datFileSet, he]
      · simp [datFileGet, datFileSet, he, ih]

theorem loadrec_shape (db : DB) (r : OneIdx) :
    db.loadrec r = { r with data := (db.loadrec r).data } := by
  unfold DB.loadrec
  cases hd : r.data with
  | some v => rfl
  | none =>
      cases hf : (datFileGet db.disk.datFiles r.DataSeq).find? (fun e => e.1 = r.datpos) with
      | some e => rfl
      | none => rfl

theorem loadrec_flags (db : DB) (r : OneIdx) : (db.loadrec r).flags = r.flags := by
  conv_lhs => rw [loadrec_shape]

theorem syncOneKey_frame (db : DB) (bidx : List IdxRec) (k : KeyType) :
    (syncOneKey db bidx k).1.Idx.ExtraSpaceUsed = db.Idx.ExtraSpaceUsed ∧
    (syncOneKey db bidx k).1.Idx.DiskSpaceNeeded = db.Idx.DiskSpaceNeeded ∧
    (syncOneKey db bidx k).1.DataSeq = db.DataSeq ∧
    (syncOneKey db bidx k).1.O = db.O ∧
    (syncOneKey db bidx k).1.PendingRecords = db.PendingRecords ∧
    (syncOneKey db bidx k).1.VolatileMode = db.VolatileMode ∧
    (syncOneKey db bidx k).1.disk.idxLog = db.disk.idxLog := by
  unfold syncOneKey
  cases db.Idx.get k <;> simp

theorem syncFold_frame (l : List KeyType) (db : DB) (bidx : List IdxRec) :
    (l.foldl (fun (s : DB × List IdxRec) k => syncOneKey s.1 s.2 k) (db, bidx)).1.Idx.ExtraSpaceUsed
        = db.Idx.ExtraSpaceUsed ∧
    (l.foldl (fun (s : DB × List IdxRec) k => syncOneKey s.1 s.2 k) (db, bidx)).1.Idx.DiskSpaceNeeded
        = db.Idx.DiskSpaceNeeded ∧
    (l.foldl (fun (s : DB × List IdxRec) k => syncOneKey s.1 s.2 k) (db, bidx)).1.DataSeq
        = db.DataSeq ∧
    (l.foldl (fun (s : DB × List IdxRec) k => syncOneKey s.1 s.2 k) (db, bidx)).1.O = db.O := by
  induction l generalizing db bidx with
  | nil => simp
  | cons a t ih =>
      simp only [List.foldl_cons]
      have h := syncOneKey_frame db bidx a
      have h2 := ih (syncOneKey db bidx a).1 (syncOneKey db bidx a).2
      exact ⟨by rw [h2.1, h.1], by rw [h2.2.1, h.2.1], by rw [h2.2.2.1, h.2.2.1],
             by rw [h2.2.2.2, h.2.2.2.1]⟩

theorem browseGo_trace (db : DB) (walk : KeyType → List Nat → Nat) (skipNB : Bool)
    (es : List (KeyType × OneIdx)) :
    (browseGo db walk skipNB es).2 = traceSpec db walk skipNB es := by
  induction es with
  | nil => rfl
  | cons e rest ih =>
      unfold browseGo traceSpec
      by_cases hs : skipNB = true ∧ ¬ e.2.flags &&& NoBrowse = 0
      · obtain ⟨hs1, hs2⟩ := hs
        subst hs1
        simp [hs2, ih]
      · by_cases ha : walk e.1 (db.loadrec e.2).Slice &&& BrAbort = 0
        · simp [hs, ha, ih]
        · simp [hs, ha]

/-! ## The claims -/

/-- Claim C5, counterexample: in volatile mode `Defrag(force := true)`
returns `false` and performs no compaction, contradicting the claim that
`Defrag` compacts and returns `true` whenever `force` is true. -/
theorem claim_C5_counterexample :
    ((newDB true).Defrag true).2 = false ∧ ((newDB true).Defrag true).1 = newDB true :=
  ⟨rfl, rfl⟩

/-- Claim C5, amended: outside volatile mode, `Defrag(force)` compacts and
returns `true` exactly when `force` is set or `extra_space_used` exceeds
`DefragPercentVal` percent of `disk_space_needed`, and otherwise returns
`false` leaving the store untouched; in volatile mode it always returns
`false` and performs no compaction. -/
theorem claim_C5_amended (db : DB) (force : Bool) :
    ((db.Defrag force).2 =
      (!db.VolatileMode &&
        (force ||
         decide (db.Idx.ExtraSpaceUsed > defragThreshold db.O db.Idx.DiskSpaceNeeded)))) ∧
    (db.Defrag force).1 = (if (db.Defrag force).2 then db.defrag else db) := by
  unfold DB.Defrag
  by_cases hv : db.VolatileMode
  · simp [hv]
  · by_cases hd : (force ||
        decide (db.Idx.ExtraSpaceUsed > defragThreshold db.O db.Idx.DiskSpaceNeeded)) = true
    · simp [hv, hd]
    · simp [hv, hd]

/-- Claim C9: with an empty pending set the internal sync procedure is a
complete no-op - the store (index log, data files, locators, flags, space
counters) is left exactly as it was, and in particular no forced compaction
happens even when `extra_space_used` is over the forced threshold. -/
theorem claim_C9 (db : DB) (h : db.PendingRecords = []) : db.sync = db := by
  unfold DB.sync
  rw [h]
  simp

/-- A store with nothing pending but far more dead space than the forced
threshold allows: input for the C9 witness. -/
def c9db : DB :=
  { DataSeq := 3
    Idx := { entries := [(1, ⟨some [7], 1, 0, 1, 0⟩)], ExtraSpaceUsed := 1000
             DiskSpaceNeeded := 1 }
    NoSyncMode := false
    PendingRecords := []
    VolatileMode := false
    O := defaultOpts
    disk := emptyDisk }

/-- Witness for C9 at a store whose dead space is over the forced
threshold. -/
theorem claim_C9_witness :
    c9db.PendingRecords = [] ∧ c9db.sync = c9db ∧
    c9db.Idx.ExtraSpaceUsed > forcedThreshold c9db.O c9db.Idx.DiskSpaceNeeded :=
  ⟨rfl, claim_C9 c9db rfl, by decide⟩

/-- The cache stage of `applyBrowsingFlags` never touches the `NoBrowse`
bit. -/
theorem stage_cache_preserves_browse (f res : Nat) :
    (if res &&& NoCache ≠ 0 then f ||| NoCache
     else if res &&& YesCache ≠ 0 then f &&& MaskNotNoCache
     else f) &&& NoBrowse = f &&& NoBrowse := by
  by_cases h3 : res &&& NoCache ≠ 0
  · rw [if_pos h3,
      lor_land_of_disjoint _ _ _ (show (NoCache &&& NoBrowse : Nat) = 0 from by decide)]
  · rw [if_neg h3]
    by_cases h4 : res &&& YesCache ≠ 0
    · rw [if_pos h4, land_land,
        show (MaskNotNoCache &&& NoBrowse : Nat) = NoBrowse from by decide]
    · rw [if_neg h4]

/-- The browse stage of `applyBrowsingFlags` never touches the `NoCache`
bit. -/
theorem stage_browse_preserves_cache (f res : Nat) :
    (if res &&& NoBrowse ≠ 0 then f ||| NoBrowse
     else if res &&& YesBrowse ≠ 0 then f &&& MaskNotNoBrowse
     else f) &&& NoCache = f &&& NoCache := by
  by_cases h1 : res &&& NoBrowse ≠ 0
  · rw [if_pos h1,
      lor_land_of_disjoint _ _ _ (show (NoBrowse &&& NoCache : Nat) = 0 from by decide)]
  · rw [if_neg h1]
    by_cases h2 : res &&& YesBrowse ≠ 0
    · rw [if_pos h2, land_land,
        show (MaskNotNoBrowse &&& NoCache : Nat) = NoCache from by decide]
    · rw [if_neg h2]

/-- Claim C7: flag requests compose per bit - within one result mask the
set-request (`NoBrowse`/`NoCache`) wins over the clear-request
(`YesBrowse`/`YesCache`) and absence of both leaves the bit unchanged
(first two conjuncts), and across two successive applications `NoX` then
`YesX` leaves the bit cleared while `YesX` then `NoX` leaves it set (last
four conjuncts). -/
theorem claim_C7 (idx : OneIdx) (res : Nat) :
    ((idx.applyBrowsingFlags res).flags &&& NoBrowse =
      (if res &&& NoBrowse ≠ 0 then NoBrowse
       else if res &&& YesBrowse ≠ 0 then 0
       else idx.flags &&& NoBrowse)) ∧
    ((idx.applyBrowsingFlags res).flags &&& NoCache =
      (if res &&& NoCache ≠ 0 then NoCache
       else if res &&& YesCache ≠ 0 then 0
       else idx.flags &&& NoCache)) ∧
    ((idx.applyBrowsingFlags NoBrowse).applyBrowsingFlags YesBrowse).flags &&& NoBrowse = 0 ∧
    ((idx.applyBrowsingFlags YesBrowse).applyBrowsingFlags NoBrowse).flags &&& NoBrowse = NoBrowse ∧
    ((idx.applyBrowsingFlags NoCache).applyBrowsingFlags YesCache).flags &&& NoCache = 0 ∧
    ((idx.applyBrowsingFlags YesCache).applyBrowsingFlags NoCache).flags &&& NoCache = NoCache := by
  have hnb : idx.applyBrowsingFlags NoBrowse =
      { idx with flags := idx.flags ||| NoBrowse } := rfl
  have hyb : idx.applyBrowsingFlags YesBrowse =
      { idx with flags := idx.flags &&& MaskNotNoBrowse } := rfl
  have hnc : idx.applyBrowsingFlags NoCache =
      { idx with flags := idx.flags ||| NoCache } := rfl
  have hyc : idx.applyBrowsingFlags YesCache =
      { idx with flags := idx.flags &&& MaskNotNoCache } := rfl
  refine ⟨?_, ?_, ?_, ?_, ?_, ?_⟩
  · show (if res &&& NoCache ≠ 0 then _ ||| NoCache
       else if res &&& YesCache ≠ 0 then _ &&& MaskNotNoCache
       else _) &&& NoBrowse = _
    rw [stage_cache_preserves_browse]
    by_cases h1 : res &&& NoBrowse ≠ 0
    · rw [if_pos h1, if_pos h1, lor_land_self]
    · rw [if_neg h1, if_neg h1]
      by_cases h2 : res &&& YesBrowse ≠ 0
      · rw [if_pos h2, if_pos h2, land_land,
          show (MaskNotNoBrowse &&& NoBrowse : Nat) = 0 from by decide, Nat.and_zero]
      · rw [if_neg h2, if_neg h2]
  · show (if res &&& NoCache ≠ 0 then _ ||| NoCache
       else if res &&& YesCache ≠ 0 then _ &&& MaskNotNoCache
       else _) &&& NoCache = _
    by_cases h3 : res &&& NoCache ≠ 0
    · rw [if_pos h3, if_pos h3, lor_land_self]
    · rw [if_neg h3, if_neg h3]
      by_cases h4 : res &&& YesCache ≠ 0
      · rw [if_pos h4, if_pos h4, land_land,
          show (MaskNotNoCache &&& NoCache : Nat) = 0 from by decide, Nat.and_zero]
      · rw [if_neg h4, if_neg h4]
        exact stage_browse_preserves_cache idx.flags res
  · rw [hnb]
    have : ({ idx with flags := idx.flags ||| NoBrowse } : OneIdx).applyBrowsingFlags
        YesBrowse =
        { idx with flags := (idx.flags ||| NoBrowse) &&& MaskNotNoBrowse } := rfl
    rw [this]
    show ((idx.flags ||| NoBrowse) &&& MaskNotNoBrowse) &&& NoBrowse = 0
    rw [land_land, show (MaskNotNoBrowse &&& NoBrowse : Nat) = 0 from by decide,
      Nat.and_zero]
  · rw [hyb]
    have : ({ idx with flags := idx.flags &&& MaskNotNoBrowse } : OneIdx).applyBrowsingFlags
        NoBrowse =
        { idx with flags := (idx.flags &&& MaskNotNoBrowse) ||| NoBrowse } := rfl
    rw [this]
    exact lor_land_self _ _
  · rw [hnc]
    have : ({ idx with flags := idx.flags ||| NoCache } : OneIdx).applyBrowsingFlags
        YesCache =
        { idx with flags := (idx.flags ||| NoCache) &&& MaskNotNoCache } := rfl
    rw [this]
    show ((idx.flags ||| NoCache) &&& MaskNotNoCache) &&& NoCache = 0
    rw [land_land, show (MaskNotNoCache &&& NoCache : Nat) = 0 from by decide,
      Nat.and_zero]
  · rw [hyc]
    have : ({ idx with flags := idx.flags &&& MaskNotNoCache } : OneIdx).applyBrowsingFlags
        NoCache =
        { idx with flags := (idx.flags &&& MaskNotNoCache) ||| NoCache } := rfl
    rw [this]
    exact lor_land_self _ _

/-- `syncneeded` outside volatile mode, written as one boolean formula. -/
theorem syncneeded_eq (db : DB) (h : db.VolatileMode = false) :
    db.syncneeded =
      (decide (db.PendingRecords.length > db.O.MaxPendingNoSync) ||
       (!db.NoSyncMode && decide (db.PendingRecords.length > db.O.MaxPending))) := by
  unfold DB.syncneeded
  rw [h]
  by_cases h1 : db.PendingRecords.length > db.O.MaxPendingNoSync
  · simp [h1]
  · by_cases h2 : (!db.NoSyncMode && decide (db.PendingRecords.length > db.O.MaxPending)) = true
    · simp [h1, h2]
    · simp [h1, h2]

/-- A reachable non-volatile store with custom options
`MaxPending = 5 > MaxPendingNoSync = 2` and two keys already pending:
input for the C2 counterexample. -/
def c2db : DB :=
  { DataSeq := 1
    Idx := { entries := [], ExtraSpaceUsed := 0, DiskSpaceNeeded := 0 }
    NoSyncMode := false
    PendingRecords := [1, 2]
    VolatileMode := false
    O := { DefragPercentVal := 50, ForcedDefragPerc := 300, MaxPending := 5
           MaxPendingNoSync := 2 }
    disk := emptyDisk }

/-- Claim C2, counterexample: a `Put` on a non-volatile store that is *not*
in no-sync mode triggers a sync although the pending set (3 keys) has not
grown beyond `MaxPending` (5) - the `MaxPendingNoSync` bound (2) fires
regardless of the mode, so the claim's "otherwise the mutation is held only
in memory" is wrong. -/
theorem claim_C2_counterexample :
    (c2db.Put 3 [9]).2 = true ∧
    c2db.VolatileMode = false ∧ c2db.NoSyncMode = false ∧
    ¬ (pendingInsert c2db.PendingRecords 3).length > c2db.O.MaxPending :=
  ⟨by decide, rfl, rfl, by decide⟩

/-- Claim C2, amended: for a mutation via put or delete outside volatile
mode, a sync is triggered exactly when the pending set has grown beyond
`MaxPendingNoSync` (in any mode), or the store is not in no-sync mode and
the pending set has grown beyond `MaxPending`; otherwise the mutation is
held only in memory (the disk is untouched and the key merely joins the
pending set). -/
theorem claim_C2_amended (db : DB) (k : KeyType) (v : List Nat)
    (h : db.VolatileMode = false) :
    ((db.Put k v).2 =
      (decide ((pendingInsert db.PendingRecords k).length > db.O.MaxPendingNoSync) ||
       (!db.NoSyncMode &&
        decide ((pendingInsert db.PendingRecords k).length > db.O.MaxPending)))) ∧
    ((db.Del k).2 =
      (decide ((pendingInsert db.PendingRecords k).length > db.O.MaxPendingNoSync) ||
       (!db.NoSyncMode &&
        decide ((pendingInsert db.PendingRecords k).length > db.O.MaxPending)))) ∧
    ((db.Put k v).2 = false →
      (db.Put k v).1.disk = db.disk ∧
      (db.Put k v).1.PendingRecords = pendingInsert db.PendingRecords k) ∧
    ((db.Del k).2 = false →
      (db.Del k).1.disk = db.disk ∧
      (db.Del k).1.PendingRecords = pendingInsert db.PendingRecords k) := by
  have hput : ∀ flags : Nat, (db.PutExt k v flags).2 =
      (decide ((pendingInsert db.PendingRecords k).length > db.O.MaxPendingNoSync) ||
       (!db.NoSyncMode &&
        decide ((pendingInsert db.PendingRecords k).length > db.O.MaxPending))) := by
    intro flags
    unfold DB.PutExt
    simp only [h, Bool.false_eq_true, if_false]
    rw [apply_ite Prod.snd]
    simp only []
    rw [syncneeded_eq _ (by simp [h])]
    by_cases hb :
        (decide ((pendingInsert db.PendingRecords k).length > db.O.MaxPendingNoSync) ||
         (!db.NoSyncMode &&
          decide ((pendingInsert db.PendingRecords k).length > db.O.MaxPending))) = true
    · simp only [hb]
      simp [hb]
    · simp only [hb]
      simp [hb]
  have hdel : (db.Del k).2 =
      (decide ((pendingInsert db.PendingRecords k).length > db.O.MaxPendingNoSync) ||
       (!db.NoSyncMode &&
        decide ((pendingInsert db.PendingRecords k).length > db.O.MaxPending))) := by
    unfold DB.Del
    simp only [h, Bool.false_eq_true, if_false]
    rw [apply_ite Prod.snd]
    simp only []
    rw [syncneeded_eq _ (by simp [h])]
    by_cases hb :
        (decide ((pendingInsert db.PendingRecords k).length > db.O.MaxPendingNoSync) ||
         (!db.NoSyncMode &&
          decide ((pendingInsert db.PendingRecords k).length > db.O.MaxPending))) = true
    · simp only [hb]
      simp [hb]
    · simp only [hb]
      simp [hb]
  refine ⟨hput 0, hdel, ?_, ?_⟩
  · intro hf
    unfold DB.Put DB.PutExt at hf ⊢
    simp only [h, Bool.false_eq_true, if_false] at hf ⊢
    split at hf
    next => simp at hf
    next hsn =>
      rw [if_neg hsn]
      exact ⟨rfl, rfl⟩
  · intro hf
    unfold DB.Del at hf ⊢
    simp only [h, Bool.false_eq_true, if_false] at hf ⊢
    split at hf
    next => simp at hf
    next hsn =>
      rw [if_neg hsn]
      exact ⟨rfl, rfl⟩

/-- `applyBrowsingFlags` only rewrites the flag word. -/
theorem applyBrowsingFlags_slice (r : OneIdx) (res : Nat) :
    (r.applyBrowsingFlags res).Slice = r.Slice := rfl

/-- Claim C10: for a key present in the index, `Get` materializes the
payload and retains it (field `data` of the surviving entry is the loaded
payload), clears the entry's `no_cache` flag by applying a `YesCache`
request (the new flag word is the old one masked with `^NoCache`, so its
`NoCache` bit is zero and its `NoBrowse` bit is the old one), leaves the
locator fields unchanged (the surviving entry differs from `rec` only in
`data` and `flags`), and touches neither the disk nor the pending set; for
an absent key `Get` returns nothing and changes nothing. -/
theorem claim_C10 (db : DB) (key : KeyType) :
    match db.Idx.get key with
    | none => db.Get key = (none, db)
    | some rec =>
        (db.Get key).1 = some (db.loadrec rec).Slice ∧
        (db.Get key).2.Idx.get key =
          some { rec with data := (db.loadrec rec).data
                          flags := rec.flags &&& MaskNotNoCache } ∧
        (rec.flags &&& MaskNotNoCache) &&& NoCache = 0 ∧
        (rec.flags &&& MaskNotNoCache) &&& NoBrowse = rec.flags &&& NoBrowse ∧
        (db.Get key).2.disk = db.disk ∧
        (db.Get key).2.PendingRecords = db.PendingRecords := by
  cases hm : db.Idx.get key with
  | none => simp only [DB.Get, hm]
  | some rec =>
      have hr2 : (db.loadrec rec).applyBrowsingFlags YesCache =
          { rec with data := (db.loadrec rec).data
                     flags := rec.flags &&& MaskNotNoCache } := by
        rw [show (db.loadrec rec).applyBrowsingFlags YesCache =
            { db.loadrec rec with
                flags := (db.loadrec rec).flags &&& MaskNotNoCache } from rfl,
          loadrec_flags]
        conv_lhs => rw [loadrec_shape db rec]
      refine ⟨?_, ?_, ?_, ?_, ?_, ?_⟩
      · simp only [DB.Get, hm]
        rw [applyBrowsingFlags_slice]
      · simp only [DB.Get, hm]
        show alGet (alSet db.Idx.entries key _) key = _
        rw [hr2]
        exact alGet_alSet_self _ _ _ rec hm
      · rw [land_land, show (MaskNotNoCache &&& NoCache : Nat) = 0 from by decide,
          Nat.and_zero]
      · rw [land_land, show (MaskNotNoCache &&& NoBrowse : Nat) = NoBrowse from by decide]
      · simp only [DB.Get, hm]
      · simp only [DB.Get, hm]

/-- Claim C1, counterexample: on a fresh non-volatile store,
`put_ext(1, "v", NoCache)` followed by `get(1)` returns `"v"` - but the
entry's in-memory payload *is* retained afterwards (`data = some "v"`), and
its `no_cache` flag is even cleared by the `YesCache` request that `Get`
applies, so no subsequent internal load re-reads the data file.  This
refutes the claim's "the in-memory payload is not retained". -/
theorem claim_C1_counterexample :
    ((((newDB false).PutExt 1 [118] NoCache).1.Get 1)).1 = some [118] ∧
    (((newDB false).PutExt 1 [118] NoCache).1.Get 1).2.Idx.get 1 =
      some { data := some [118], DataSeq := 0, datpos := 0, datlen := 1, flags := 0 } :=
  ⟨rfl, rfl⟩

/-- Claim C1, amended: for a store not in volatile mode, after
`put_ext(k, v, NoCache)` a call `get(k)` returns `v`, and afterwards the
entry's in-memory payload *is* retained with its `no_cache` flag cleared
(`get` hands out the cached pointer and applies a `YesCache` request), so a
subsequent internal load does not have to re-read the data file. -/
theorem claim_C1_amended (k : KeyType) (v : List Nat) :
    ((((newDB false).PutExt k v NoCache).1.Get k)).1 = some v ∧
    (((newDB false).PutExt k v NoCache).1.Get k).2.Idx.get k =
      some { data := some v, DataSeq := 0, datpos := 0, datlen := v.length
             flags := 0 } := by
  have hstep : ((newDB false).PutExt k v NoCache).1 =
      { DataSeq := 1
        Idx := { entries := [(k, newIdx v NoCache)], ExtraSpaceUsed := 0
                 DiskSpaceNeeded := 0 + v.length }
        NoSyncMode := false
        PendingRecords := [k]
        VolatileMode := false
        O := defaultOpts
        disk := emptyDisk } := rfl
  rw [hstep]
  constructor
  · simp [DB.Get, Index.get, alGet, alSet, DB.loadrec, newIdx,
      OneIdx.applyBrowsingFlags, OneIdx.Slice, NoCache, YesCache, NoBrowse,
      YesBrowse, MaskNotNoCache]
  · simp [DB.Get, Index.get, alGet, alSet, DB.loadrec, newIdx,
      OneIdx.applyBrowsingFlags, OneIdx.Slice, NoCache, YesCache, NoBrowse,
      YesBrowse, MaskNotNoCache]
    decide

/-- Claim C3: each step of the sync loop over the pending set treats its key
as follows - a still-live key has its payload appended to the current
generation's data file at the file's end, gets its locator's `data_seq` and
`offset` rewritten to that fresh location (length and flags untouched), has
a put record with the updated locator appended to the index-log buffer, and
keeps its cached payload unless `no_cache` is set, in which case the
payload is dropped; a key absent from the index leaves the store untouched
and appends a delete record to the index-log buffer. -/
theorem claim_C3 (db : DB) (bidx : List IdxRec) (k : KeyType) :
    match db.Idx.get k with
    | some rec =>
        (syncOneKey db bidx k).2 =
          bidx ++ [IdxRec.put k db.DataSeq
            (datSize (datFileGet db.disk.datFiles db.DataSeq)) rec.datlen rec.flags] ∧
        datFileGet (syncOneKey db bidx k).1.disk.datFiles db.DataSeq =
          datFileGet db.disk.datFiles db.DataSeq ++
            [(datSize (datFileGet db.disk.datFiles db.DataSeq), k, rec.Slice)] ∧
        (syncOneKey db bidx k).1.Idx.get k =
          some { rec with
            datpos := datSize (datFileGet db.disk.datFiles db.DataSeq)
            DataSeq := db.DataSeq
            data := if rec.flags &&& NoCache ≠ 0 then none else rec.data }
    | none =>
        (syncOneKey db bidx k).1 = db ∧
        (syncOneKey db bidx k).2 = bidx ++ [IdxRec.del k] := by
  cases hm : db.Idx.get k with
  | none => simp [syncOneKey, hm]
  | some rec =>
      refine ⟨?_, ?_, ?_⟩
      · simp [syncOneKey, hm, datAppend]
      · simp only [syncOneKey, hm, datAppend]
        exact datFileGet_datFileSet _ _ _
      · simp only [syncOneKey, hm, datAppend]
        show alGet (alSet db.Idx.entries k _) k = _
        by_cases hc : rec.flags &&& NoCache ≠ 0
        · rw [if_pos hc, if_pos hc,
            alGet_alSet_self db.Idx.entries k _ rec hm]
          rfl
        · rw [if_neg hc, if_neg hc,
            alGet_alSet_self db.Idx.entries k _ rec hm]

/-- Claim C6: the walk-invocation trace of `Browse` is exactly the
`traceSpec`-trace that skips every entry whose `no_browse` flag is set,
while the trace of `BrowseAll` is the `traceSpec`-trace that skips nothing;
in both, `traceSpec` calls the walk function entry by entry and stops right
after the first result carrying the `BrAbort` bit, continuing otherwise. -/
theorem claim_C6 (db : DB) (walk : KeyType → List Nat → Nat) :
    (db.Browse walk).2 = traceSpec db walk true db.Idx.entries ∧
    (db.BrowseAll walk).2 = traceSpec db walk false db.Idx.entries :=
  ⟨browseGo_trace db walk true db.Idx.entries,
   browseGo_trace db walk false db.Idx.entries⟩

/-- `sync` outside volatile mode with a non-empty pending set: process the
pending keys, append the index-log buffer, clear the pending set, then
defrag if the forced threshold is crossed. -/
theorem sync_unfold (db : DB) (h1 : db.VolatileMode = false)
    (hlen : 0 < db.PendingRecords.length) :
    db.sync =
      (let st := db.PendingRecords.foldl
          (fun (s : DB × List IdxRec) k => syncOneKey s.1 s.2 k) (db, []);
       let db2 : DB :=
         { st.1 with
           disk := { st.1.disk with idxLog := st.1.disk.idxLog ++ st.2 }
           PendingRecords := [] }
       if db2.Idx.ExtraSpaceUsed > forcedThreshold db2.O db2.Idx.DiskSpaceNeeded then
         db2.defrag
       else db2) := by
  unfold DB.sync
  rw [h1]
  simp [hlen]

/-- Claim C4: after a sync of a non-empty pending set (outside volatile
mode) the pending set is empty; and when `extra_space_used` exceeds
`ForcedDefragPerc` percent of `disk_space_needed` - the per-key processing
does not change either counter - compaction runs within the same sync: the
resulting store has `extra_space_used = 0`, a freshly bumped data-file
generation, and a truncated index log. -/
theorem claim_C4 (db : DB) (h1 : db.VolatileMode = false)
    (h2 : db.PendingRecords ≠ []) :
    db.sync.PendingRecords = [] ∧
    (db.Idx.ExtraSpaceUsed > forcedThreshold db.O db.Idx.DiskSpaceNeeded →
      db.sync.Idx.ExtraSpaceUsed = 0 ∧
      db.sync.DataSeq = db.DataSeq + 1 ∧
      db.sync.disk.idxLog = []) := by
  have hlen : 0 < db.PendingRecords.length := List.length_pos.mpr h2
  rw [sync_unfold db h1 hlen]
  simp only []
  have hf := syncFold_frame db.PendingRecords db []
  refine ⟨?_, ?_⟩
  · split
    · simp [DB.defrag]
    · rfl
  · intro hcond
    split
    next hc =>
      refine ⟨rfl, ?_, rfl⟩
      show ((_ : DB)).defrag.DataSeq = db.DataSeq + 1
      simp [DB.defrag]
      exact hf.2.2.1
    next hc =>
      rw [hf.1, hf.2.1, hf.2.2.2] at hc
      exact absurd hcond hc

/-- A non-volatile store with one pending key, one live entry, and far more
dead space than the forced threshold allows: input for the C4 witness. -/
def c4db : DB :=
  { DataSeq := 1
    Idx := { entries := [(1, ⟨some [7], 0, 0, 1, 0⟩)], ExtraSpaceUsed := 100
             DiskSpaceNeeded := 1 }
    NoSyncMode := false
    PendingRecords := [1]
    VolatileMode := false
    O := defaultOpts
    disk := emptyDisk }

/-- Witness for C4 at a store whose dead space is over the forced
threshold, so the sync also compacts. -/
theorem claim_C4_witness :
    c4db.VolatileMode = false ∧ c4db.PendingRecords ≠ [] ∧
    (c4db.sync.PendingRecords = [] ∧
     (c4db.Idx.ExtraSpaceUsed > forcedThreshold c4db.O c4db.Idx.DiskSpaceNeeded →
       c4db.sync.Idx.ExtraSpaceUsed = 0 ∧
       c4db.sync.DataSeq = c4db.DataSeq + 1 ∧
       c4db.sync.disk.idxLog = [])) :=
  ⟨rfl, by decide, claim_C4 c4db rfl (by decide)⟩

/-- Witness for C2's amended theorem at a fresh default store: the first put
stays below both thresholds, so no sync fires. -/
theorem claim_C2_amended_witness :
    (newDB false).VolatileMode = false ∧
    (((newDB false).Put 5 [1]).2 =
      (decide ((pendingInsert (newDB false).PendingRecords 5).length >
          (newDB false).O.MaxPendingNoSync) ||
       (!(newDB false).NoSyncMode &&
        decide ((pendingInsert (newDB false).PendingRecords 5).length >
          (newDB false).O.MaxPending)))) :=
  ⟨rfl, (claim_C2_amended (newDB false) 5 [1] rfl).1⟩

/-- Claim C8: in volatile mode a `Put` or `Del` leaves the pending set and
the disk untouched and switches no-sync mode on implicitly, and the store
flushes on close: on a fresh volatile store, `put(k, v)` followed by
`close` leaves a truncated index log and a single compacted data file, and
reopening the resulting disk yields `get(k) = v`. -/
theorem claim_C8 (db : DB) (k : KeyType) (v : List Nat)
    (h : db.VolatileMode = true) :
    ((db.Put k v).1.PendingRecords = db.PendingRecords ∧
     (db.Put k v).1.disk = db.disk ∧
     (db.Put k v).1.NoSyncMode = true ∧
     (db.Put k v).2 = false) ∧
    ((db.Del k).1.PendingRecords = db.PendingRecords ∧
     (db.Del k).1.disk = db.disk ∧
     (db.Del k).1.NoSyncMode = true ∧
     (db.Del k).2 = false) ∧
    (((newDB true).Put k v).1.Close.idxLog = [] ∧
     ((newDB true).Put k v).1.Close.datFiles.length = 1 ∧
     ((openFromDisk ((newDB true).Put k v).1.Close false defaultOpts).Get k).1 =
       some v) := by
  refine ⟨?_, ?_, ?_⟩
  · simp [DB.Put, DB.PutExt, h]
  · simp [DB.Del, h]
  · have hclose : ((newDB true).Put k v).1.Close =
        { datFiles := [(2, [(0, k, v)])]
          snapshot := [(k, { data := none, DataSeq := 2, datpos := 0
                             datlen := v.length, flags := 0 })]
          snapshotSeq := 2
          idxLog := [] } := by
      simp [DB.Close, DB.Put, DB.PutExt, newDB, openFromDisk, emptyDisk,
        DB.defrag, Index.memput, alGet, newIdx, DB.loadrec, OneIdx.freerec,
        OneIdx.FreeData, OneIdx.Slice, datSize, sumDatLen, NoCache, defaultOpts]
    rw [hclose]
    refine ⟨rfl, rfl, ?_⟩
    simp [openFromDisk, DB.Get, Index.get, alGet, DB.loadrec, datFileGet,
      OneIdx.applyBrowsingFlags, OneIdx.Slice, List.take_length, List.find?,
      NoCache, YesCache, NoBrowse, YesBrowse, MaskNotNoCache]

/-- Witness for C8 on a fresh volatile store: put, close, reopen, get. -/
theorem claim_C8_witness :
    (newDB true).VolatileMode = true ∧
    ((openFromDisk (((newDB true).Put 1 [97]).1.Close) false defaultOpts).Get 1).1 =
      some [97] :=
  ⟨rfl, (claim_C8 (newDB true) 1 [97] rfl).2.2.2.2⟩

end Qdb
